import Mathlib

/-!
Verification development for the german_newspaper_crawler repository.

Shallow embedding of the crawl / dedup / persist pipeline:
* src/lib/common/object_model.py  (ObjectModel, internal id generator, content_hash policy)
* src/lib/common/mongodb.py       (upsert_article, the Store adapter)
* src/lib/common/web_requests.py  (process_domain_generic, the per-URL pipeline)

Machine integers are modelled as Nat with explicit reduction modulo 2^32 where
the digest arithmetic overflows.  All definitions are executable.
-/

namespace GNC

/-! ## SHA-256 (hashlib.sha256(...).hexdigest() over UTF-8 bytes)

The repository delegates hashing to Python's hashlib; the digest algorithm is
part of the spec's external contract (SHA-256, lowercase hex), so it is
implemented here executably over the UTF-8 bytes of the input string. -/

/-- Truncating 32-bit addition. -/
def add32 (a b : Nat) : Nat := (a + b) % 4294967296

/-- Rotate a 32-bit word right by n positions. -/
def rotr32 (n x : Nat) : Nat :=
  ((x >>> n) ||| ((x <<< (32 - n)) % 4294967296)) % 4294967296

/-- SHA-256 Ch function. -/
def shaCh (x y z : Nat) : Nat := (x &&& y) ^^^ ((x ^^^ 4294967295) &&& z)

/-- SHA-256 Maj function. -/
def shaMaj (x y z : Nat) : Nat := (x &&& y) ^^^ (x &&& z) ^^^ (y &&& z)

/-- SHA-256 big sigma 0. -/
def bigSigma0 (x : Nat) : Nat := rotr32 2 x ^^^ rotr32 13 x ^^^ rotr32 22 x

/-- SHA-256 big sigma 1. -/
def bigSigma1 (x : Nat) : Nat := rotr32 6 x ^^^ rotr32 11 x ^^^ rotr32 25 x

/-- SHA-256 small sigma 0. -/
def smallSigma0 (x : Nat) : Nat := rotr32 7 x ^^^ rotr32 18 x ^^^ (x >>> 3)

/-- SHA-256 small sigma 1. -/
def smallSigma1 (x : Nat) : Nat := rotr32 17 x ^^^ rotr32 19 x ^^^ (x >>> 10)

/-- The 64 SHA-256 round constants, written in decimal. -/
def K256 : List Nat :=
  [1116352408, 1899447441, 3049323471, 3921009573, 961987163, 1508970993, 2453635748,
   2870763221, 3624381080, 310598401, 607225278, 1426881987, 1925078388, 2162078206,
   2614888103, 3248222580, 3835390401, 4022224774, 264347078, 604807628, 770255983,
   1249150122, 1555081692, 1996064986, 2554220882, 2821834349, 2952996808, 3210313671,
   3336571891, 3584528711, 113926993, 338241895, 666307205, 773529912, 1294757372,
   1396182291, 1695183700, 1986661051, 2177026350, 2456956037, 2730485921, 2820302411,
   3259730800, 3345764771, 3516065817, 3600352804, 4094571909, 275423344, 430227734,
   506948616, 659060556, 883997877, 958139571, 1322822218, 1537002063, 1747873779,
   1955562222, 2024104815, 2227730452, 2361852424, 2428436474, 2756734187, 3204031479,
   3329325298]

/-- Eight-word SHA-256 working state. -/
structure Hash8 where
  a : Nat
  b : Nat
  c : Nat
  d : Nat
  e : Nat
  f : Nat
  g : Nat
  h : Nat
deriving DecidableEq

/-- SHA-256 initial hash value, in decimal. -/
def H0 : Hash8 :=
  ⟨1779033703, 3144134277, 1013904242, 2773480762, 1359893119, 2600822924, 528734635,
   1541459225⟩

/-- Big-endian byte serialisation of a value into a fixed number of bytes. -/
def bytesBE : Nat → Nat → List Nat
  | 0, _ => []
  | w + 1, v => bytesBE w (v / 256) ++ [v % 256]

/-- SHA-256 padding: append 0x80, zeros, and the 64-bit big-endian bit length. -/
def padMessage (msg : List Nat) : List Nat :=
  let len := msg.length
  let k := (119 - len % 64) % 64
  msg ++ [128] ++ List.replicate k 0 ++ bytesBE 8 (8 * len)

/-- Group a byte list into big-endian 32-bit words. -/
def wordsBE : List Nat → List Nat
  | b0 :: b1 :: b2 :: b3 :: rest =>
      (((b0 * 256 + b1) * 256 + b2) * 256 + b3) :: wordsBE rest
  | _ => []

/-- Extend the (reversed) message schedule by the given number of words. -/
def extendRev (rw : List Nat) : Nat → List Nat
  | 0 => rw
  | k + 1 =>
      let w2 := rw.getD 1 0
      let w7 := rw.getD 6 0
      let w15 := rw.getD 14 0
      let w16 := rw.getD 15 0
      extendRev (add32 (add32 (smallSigma1 w2) w7) (add32 (smallSigma0 w15) w16) :: rw) k

/-- One list of (constant, scheduled word) pairs driving the 64 compression rounds. -/
def shaRounds : List (Nat × Nat) → Hash8 → Hash8
  | [], st => st
  | (k, w) :: rest, st =>
      let t1 := add32 st.h (add32 (bigSigma1 st.e) (add32 (shaCh st.e st.f st.g) (add32 k w)))
      let t2 := add32 (bigSigma0 st.a) (shaMaj st.a st.b st.c)
      shaRounds rest ⟨add32 t1 t2, st.a, st.b, st.c, add32 st.d t1, st.e, st.f, st.g⟩

/-- Compress a single 512-bit block (given as 16 words) into the running state. -/
def compressBlock (st : Hash8) (w16 : List Nat) : Hash8 :=
  let W := (extendRev w16.reverse 48).reverse
  let r := shaRounds (K256.zip W) st
  ⟨add32 st.a r.a, add32 st.b r.b, add32 st.c r.c, add32 st.d r.d,
   add32 st.e r.e, add32 st.f r.f, add32 st.g r.g, add32 st.h r.h⟩

/-- Fold the compression function over the given number of 64-byte blocks. -/
def sha256Blocks (st : Hash8) (bytes : List Nat) : Nat → Hash8
  | 0 => st
  | k + 1 => sha256Blocks (compressBlock st (wordsBE (bytes.take 64))) (bytes.drop 64) k

/-- Lowercase hexadecimal character for a value below 16. -/
def hexChar (n : Nat) : Char := if n < 10 then Char.ofNat (48 + n) else Char.ofNat (87 + n)

/-- Fixed-width lowercase hexadecimal rendering. -/
def toHexFixed : Nat → Nat → List Char
  | 0, _ => []
  | w + 1, v => toHexFixed w (v / 16) ++ [hexChar (v % 16)]

/-- UTF-8 encoding of a single character (s.encode("utf-8"), per scalar value). -/
def utf8EncodeCharNat (c : Char) : List Nat :=
  let n := c.toNat
  if n < 128 then [n]
  else if n < 2048 then [192 + n / 64, 128 + n % 64]
  else if n < 65536 then [224 + n / 4096, 128 + n / 64 % 64, 128 + n % 64]
  else [240 + n / 262144, 128 + n / 4096 % 64, 128 + n / 64 % 64, 128 + n % 64]

/-- UTF-8 bytes of a string. -/
def utf8Bytes (s : String) : List Nat := s.data.flatMap utf8EncodeCharNat

/-- hashlib.sha256(s.encode("utf-8")).hexdigest(): lowercase-hex SHA-256 of the
UTF-8 bytes of a string. -/
def sha256_hex (s : String) : String :=
  let padded := padMessage (utf8Bytes s)
  let fin := sha256Blocks H0 padded (padded.length / 64)
  String.mk (([fin.a, fin.b, fin.c, fin.d, fin.e, fin.f, fin.g, fin.h].map (toHexFixed 8)).flatten)

/-! ## Article data model (src/lib/common/object_model.py, class ObjectModel)

Fields are the ones read or written by the operations modelled here.  The
timestamp fields (published_date, parsed_date), ai_keywords and pos_taggs are
carried opaquely by the Python code on the paths the claims concern (they never
influence id assignment, fingerprinting, dedup checks or upsert key selection,
and the enrichment step is modelled as an arbitrary Article transformer), so
they are omitted from the record.  Optional[str] fields become Option String;
a Python value of "" is some "" (present but falsy), None is none. -/

structure Article where
  _id : Option Int
  url : Option String
  titel : Option String
  teaser : Option String
  autor : Option String
  category : Option String
  html : Option String
  text : Option String
  content_hash : Option String
deriving DecidableEq

/-- Python truthiness of an Optional[str]: None and "" are falsy. -/
def truthy : Option String → Bool
  | none => false
  | some s => s ≠ ""

/-- Python `a or b` for an Optional[str] a and a str b. -/
def pyOrS (a : Option String) (b : String) : String :=
  match a with
  | none => b
  | some s => if s = "" then b else s

/-- The whitespace characters stripped by Python str.strip() that occur in
this development (ASCII whitespace). -/
def isPyWs (c : Char) : Bool :=
  c = ' ' || c = '\t' || c = '\n' || c = '\r' || c = '\x0b' || c = '\x0c'

/-- Python str.strip(): remove leading and trailing whitespace. -/
def pyStrip (s : String) : String :=
  String.mk (((s.data.dropWhile isPyWs).reverse.dropWhile isPyWs).reverse)

/-- Python str.startswith. -/
def strStarts (s p : String) : Bool := p.data.isPrefixOf s.data

/-- url.startswith(("http://", "https://")). -/
def isHttpUrl (u : String) : Bool := strStarts u "http://" || strStarts u "https://"

/-- Model of (self.text or self.html or "").strip() — the content fallback
input of ObjectModel.__post_init__ (also recomputed in
process_domain_generic). -/
def dataOf (a : Article) : String := pyStrip (pyOrS a.text (pyOrS a.html ""))

/-- The content-fallback branch of ObjectModel.__post_init__ (lines 204-214):
hash the stripped `text or html` value when non-empty, else leave unset. -/
def fallbackContentHash (a : Article) : Option String :=
  let data := dataOf a
  if data = "" then none else some (sha256_hex data)

/-- The fingerprint policy of ObjectModel.__post_init__ (lines 195-214): keep a
pre-set content_hash; else hash the URL when it carries an http(s) prefix; else
fall back to hashing the stripped content; else leave the fingerprint unset.
This is the spec's computeFingerprint. -/
def postInitContentHash (a : Article) : Option String :=
  match a.content_hash with
  | some h => some h
  | none =>
    match a.url with
    | some u => if isHttpUrl u then some (sha256_hex u) else fallbackContentHash a
    | none => fallbackContentHash a

/-! ## Internal id generator (src/lib/common/object_model.py, lines 11-27 and
from_dict, lines 301-317)

The Python module keeps a global counter `_next_internal_id` behind a lock; the
lock-protected read-and-increment and raise-to-at-least operations are modelled
as explicit state passing over the counter value. -/

structure IdGen where
  next : Int
deriving DecidableEq

/-- Model of _get_next_internal_id(): return the counter and increment it. -/
def getNextInternalId (g : IdGen) : Int × IdGen := (g.next, ⟨g.next + 1⟩)

/-- Model of _ensure_next_internal_id_at_least(min_exclusive): raise the
counter past the given bound if needed. -/
def ensureNextInternalIdAtLeast (minExclusive : Int) (g : IdGen) : IdGen :=
  if g.next ≤ minExclusive then ⟨minExclusive + 1⟩ else g

/-- The id-assignment step of ObjectModel.__post_init__ (lines 190-193): a
missing _id draws a fresh id; a pre-set _id advances the generator past it. -/
def assignInternalId (pre : Option Int) (g : IdGen) : Int × IdGen :=
  match pre with
  | none => getNextInternalId g
  | some i => (i, ensureNextInternalIdAtLeast i g)

/-- max_seen of ObjectModel.from_dict (lines 310-315): the larger of the parsed
numeric `_id` and legacy `id` fields, when present.  The Option Int arguments
are the results of _maybe_parse_int on the stored fields. -/
def maxSeen : Option Int → Option Int → Option Int
  | none, none => none
  | some a, none => some a
  | none, some b => some b
  | some a, some b => some (max a b)

/-- One id-relevant event in a process: constructing a fresh Article, or
deserializing one from storage via ObjectModel.from_dict with the given parsed
numeric `_id` and `id` fields. -/
inductive IdEvent where
  | fresh : IdEvent
  | deser : Option Int → Option Int → IdEvent
deriving DecidableEq

/-- The _ensure_next_internal_id_at_least(max_seen) call of from_dict
(lines 316-317), a no-op when no numeric id was observed. -/
def applyMaxSeen (i n : Option Int) (g : IdGen) : IdGen :=
  match maxSeen i n with
  | none => g
  | some m => ensureNextInternalIdAtLeast m g

/-- The id assigned by one event, with the updated generator.  `deser i n`
performs from_dict's _ensure_next_internal_id_at_least(max_seen) followed by
the constructor's __post_init__ id assignment with _id := i. -/
def stepEvent (g : IdGen) : IdEvent → Int × IdGen
  | .fresh => getNextInternalId g
  | .deser i n => assignInternalId i (applyMaxSeen i n g)

/-- Generator state after a sequence of events. -/
def runEvents (g : IdGen) : List IdEvent → IdGen
  | [] => g
  | e :: es => runEvents (stepEvent g e).snd es

/-- The ids auto-assigned by the fresh-construction events of a sequence, in
order. -/
def freshIds (g : IdGen) : List IdEvent → List Int
  | [] => []
  | .fresh :: es => (stepEvent g .fresh).fst :: freshIds (stepEvent g .fresh).snd es
  | .deser i n :: es => freshIds (stepEvent g (.deser i n)).snd es

/-! ## Store adapter (src/lib/common/mongodb.py, upsert_article, lines 264-317)

A collection is a list of documents.  A stored document is the article's
to_dict() with "_id" popped (upsert_article line 281), so it has no _id field.
update_one(query, set-doc, upsert=True) replaces the first matching document
(the set-doc covers every stored field) or appends the document when nothing
matches. -/

structure Doc where
  url : Option String
  titel : Option String
  teaser : Option String
  autor : Option String
  category : Option String
  html : Option String
  text : Option String
  content_hash : Option String
deriving DecidableEq

/-- obj.to_dict() with "_id" stripped, as written by upsert_article. -/
def toDoc (a : Article) : Doc :=
  ⟨a.url, a.titel, a.teaser, a.autor, a.category, a.html, a.text, a.content_hash⟩

/-- An upsert query: {"content_hash": h} or {"url": u} (u may be null). -/
inductive QueryKey where
  | byHash : String → QueryKey
  | byUrl : Option String → QueryKey
deriving DecidableEq

/-- Whether a stored document matches a query. -/
def matchesQ (q : QueryKey) (d : Doc) : Bool :=
  match q with
  | .byHash h => d.content_hash = some h
  | .byUrl u => d.url = u

/-- update_one(query, set-doc, upsert=True): replace the first match, else
append.  The Bool reports whether an insert (a new document) happened. -/
def updateOne (store : List Doc) (q : QueryKey) (d : Doc) : List Doc × Bool :=
  match store with
  | [] => ([d], true)
  | x :: xs =>
      if matchesQ q x then (d :: xs, false)
      else
        let r := updateOne xs q d
        (x :: r.fst, r.snd)

/-- The skip-empty-extracts test of upsert_article (lines 284-287): both html
and text missing or whitespace-only. -/
def contentless (obj : Article) : Bool :=
  (pyStrip (obj.html.getD "") = "") && (pyStrip (obj.text.getD "") = "")

/-- Query selection of upsert_article (lines 290-295): a non-empty string
content_hash keys the upsert; otherwise the fallback key is
getattr(obj, "id", getattr(obj, "url", input_url)).  ObjectModel instances
have no "id" attribute and always have a "url" attribute (possibly None), so
the fallback resolves to obj.url and input_url is never reached. -/
def primaryKey (obj : Article) : QueryKey :=
  match obj.content_hash with
  | some h => if h = "" then .byUrl obj.url else .byHash h
  | none => .byUrl obj.url

/-- upsert_article(collection, obj, input_url) on a store where update_one
succeeds (the repository's ensure_indexes_for_collections creates only
non-unique indexes, so no duplicate-key error arises from them).  Returns the
new store and the function's boolean result. -/
def upsertArticle (store : List Doc) (obj : Article) (inputUrl : String) : List Doc × Bool :=
  if contentless obj then (store, false)
  else
    let r := updateOne store (primaryKey obj) (toDoc obj)
    (r.fst, true)

/-- Outcome of one update_one attempt when the backend may raise:
DuplicateKeyError, or any other error (WriteError / unexpected), or success. -/
inductive WriteResult where
  | ok : WriteResult
  | dupKey : WriteResult
  | err : WriteResult
deriving DecidableEq

/-- The error-handling skeleton of upsert_article (lines 297-317) with the
backend behaviour abstracted as an outcome oracle per query.  Returns the list
of queries attempted, in order, and the boolean result: a DuplicateKeyError on
the primary attempt triggers exactly one retry with the URL-based fallback
query {"url": obj.url}; any failure of that retry, and any non-duplicate error
on the primary attempt, yields False. -/
def upsertAttempts (outcome : QueryKey → WriteResult) (obj : Article) : List QueryKey × Bool :=
  if contentless obj then ([], false)
  else
    let q := primaryKey obj
    match outcome q with
    | .ok => ([q], true)
    | .dupKey =>
        let fq := QueryKey.byUrl obj.url
        match outcome fq with
        | .ok => ([q, fq], true)
        | _ => ([q, fq], false)
    | .err => ([q], false)

/-! ## Per-URL pipeline (src/lib/common/web_requests.py, process_domain_generic)

The network fetch, the optional domain parse callback and the optional POS
tagger are parameters, as they are in the source (fetch failures of any kind
degrade to html = "", a parse callback that raises degrades to None, and a
tagger is an arbitrary mutation of the article).  The callbacks modelled as
pure functions: fetch returns none on any exception of fetch_url, the parse
callback returns none when absent or raising. -/

/-- re.sub(r"<[^>]+>", " ", html): replace every maximal <...> group (at least
one non-'>' character between the brackets) by one space.  The second argument
carries the characters seen since an unmatched '<', reversed. -/
def subTagsAux : List Char → Option (List Char) → List Char
  | [], none => []
  | [], some buf => '<' :: buf.reverse
  | c :: cs, none =>
      if c = '<' then subTagsAux cs (some [])
      else c :: subTagsAux cs none
  | c :: cs, some buf =>
      if c = '>' then
        if buf.isEmpty then '<' :: '>' :: subTagsAux cs none
        else ' ' :: subTagsAux cs none
      else subTagsAux cs (some (c :: buf))

/-- The tag-stripping step of _coerce_to_objectmodel (line 29). -/
def stripTags (html : String) : String := String.mk (subTagsAux html.data none)

/-- The result of the parse callback for a URL and body: none models both an
absent domain parser and a parser that raised (lines 136-145). -/
def parseResult (parseFn : Option (String → String → Option Article)) (u html : String) :
    Option Article :=
  match parseFn with
  | some f => f u html
  | none => none

/-- Model of _coerce_to_objectmodel (lines 23-30) for a parser that produced an
ObjectModel or nothing: on nothing, build the minimal
ObjectModel(url=url, html=html, text=tag-stripped html), whose __post_init__
computes the content hash (the internal id does not affect the pipeline). -/
def coerceToObjectModel (result : Option Article) (url html : String) : Article :=
  match result with
  | some a => a
  | none =>
      let base : Article :=
        ⟨none, some url, none, none, none, none, some html, some (stripTags html), none⟩
      { base with content_hash := postInitContentHash base }

/-- The article in hand after fetch, parse and coercion (lines 127-150). -/
def builtObj (fetch : String → Option String)
    (parseFn : Option (String → String → Option Article)) (u : String) : Article :=
  let html := (fetch u).getD ""
  coerceToObjectModel (parseResult parseFn u html) u html

/-- url_hash of lines 158-167: the SHA-256 of obj.url when it is an http(s)
URL. -/
def urlHashOf (a : Article) : Option String :=
  match a.url with
  | some s => if isHttpUrl s then some (sha256_hex s) else none
  | none => none

/-- content_hash_calc of lines 169-175: the SHA-256 of the stripped
`text or html` data when non-empty. -/
def contentHashCalcOf (a : Article) : Option String :=
  let data := dataOf a
  if data = "" then none else some (sha256_hex data)

/-- Lines 177-179: a falsy obj.content_hash is filled with content_hash_calc
or url_hash. -/
def fillHash (a : Article) : Article :=
  if truthy a.content_hash then a
  else { a with content_hash := contentHashCalcOf a <|> urlHashOf a }

/-- The article entering the dedup checks: coerced and hash-filled. -/
def preTagObj (fetch : String → Option String)
    (parseFn : Option (String → String → Option Article)) (u : String) : Article :=
  fillHash (builtObj fetch parseFn u)

/-- The three pre-tagging dedup checks of lines 182-194: skip when the filled
content_hash, the url hash, or the content hash is already known. -/
def skipsPreTag (known : List String) (a : Article) : Bool :=
  (truthy a.content_hash && known.contains (a.content_hash.getD ""))
  || (match urlHashOf a with
      | some h => known.contains h
      | none => false)
  || (match contentHashCalcOf a with
      | some h => known.contains h
      | none => false)

/-- Shared dedup state of the pipeline: the collection and the known-hash
set (a membership-only view of the Python set). -/
structure PipeState where
  store : List Doc
  known : List String
deriving DecidableEq

/-- set.add: no-op when the hash is already present. -/
def addKnown (h : String) (k : List String) : List String :=
  if h ∈ k then k else h :: k

/-- The post-tagging dedup re-check of lines 205-211: skip when the (possibly
tagger-modified) content_hash is truthy and already known. -/
def tagSkip (known : List String) (t : Article) : Bool :=
  truthy t.content_hash && known.contains (t.content_hash.getD "")

/-- One iteration of the URL loop of process_domain_generic (lines 127-220),
with the upsert callback a parameter as in the source (its boolean result and
any exception are ignored by the loop).  Also returns the list of URLs passed
to fetch_url during the iteration: the fetch happens first, unconditionally
(line 130), before any dedup check. -/
def processUrl (fetch : String → Option String)
    (parseFn : Option (String → String → Option Article))
    (posTag : Article → Article)
    (upsert : List Doc → Article → String → List Doc × Bool)
    (st : PipeState) (u : String) : PipeState × List String :=
  let a := preTagObj fetch parseFn u
  if skipsPreTag st.known a then (st, [u])
  else
    let t := posTag a
    if tagSkip st.known t then (st, [u])
    else
      let store' := (upsert st.store t u).fst
      let known' := if truthy t.content_hash then addKnown (t.content_hash.getD "") st.known
                    else st.known
      (⟨store', known'⟩, [u])

/-- The state after one URL. -/
def stepUrl (fetch : String → Option String)
    (parseFn : Option (String → String → Option Article))
    (posTag : Article → Article)
    (upsert : List Doc → Article → String → List Doc × Bool)
    (st : PipeState) (u : String) : PipeState :=
  (processUrl fetch parseFn posTag upsert st u).fst

/-- The URL loop of process_domain_generic over a discovered URL list. -/
def runUrls (fetch : String → Option String)
    (parseFn : Option (String → String → Option Article))
    (posTag : Article → Article)
    (upsert : List Doc → Article → String → List Doc × Bool)
    (st : PipeState) (urls : List String) : PipeState :=
  urls.foldl (stepUrl fetch parseFn posTag upsert) st

/-! ## Theorems for the claims -/

/-- Claim C10: an article whose html and text are both unset or
whitespace-only is never written by upsert_article: the store is untouched and
the result is False, regardless of fingerprint or URL (and regardless of how
the backend would have answered). -/
theorem upsert_rejects_contentless (store : List Doc) (obj : Article) (inputUrl : String)
    (outcome : QueryKey → WriteResult) (h : contentless obj = true) :
    upsertArticle store obj inputUrl = (store, false) ∧
    upsertAttempts outcome obj = ([], false) := by
  constructor <;> simp [upsertArticle, upsertAttempts, h]

/-- Witness for C10 at a concrete contentless article that does carry both a
fingerprint and a URL, over a non-empty store. -/
theorem upsert_rejects_contentless_witness :
    contentless ⟨none, some "https://x.test/1", none, none, none, none, some " ", some "",
      some "abcd"⟩ = true ∧
    upsertArticle [⟨none, none, none, none, none, none, none, none⟩]
      ⟨none, some "https://x.test/1", none, none, none, none, some " ", some "", some "abcd"⟩
      "https://x.test/1"
      = ([⟨none, none, none, none, none, none, none, none⟩], false) :=
  ⟨by decide,
   (upsert_rejects_contentless [⟨none, none, none, none, none, none, none, none⟩]
      ⟨none, some "https://x.test/1", none, none, none, none, some " ", some "", some "abcd"⟩
      "https://x.test/1" (fun _ => WriteResult.ok) (by decide)).1⟩

/-- Counterexample for C4: an article with content but neither fingerprint nor
URL set is NOT rejected by upsert_article — it is written (result True) into
the store, keyed by the null URL, because the fallback key
getattr(obj, "id", getattr(obj, "url", input_url)) resolves to obj.url even
when obj.url is None.  The claim says such an unkeyed document is rejected and
not written. -/
theorem upsert_no_reject_counterexample :
    upsertArticle [] ⟨none, none, none, none, none, none, some "x", none, none⟩ "input" =
      ([⟨none, none, none, none, none, some "x", none, none⟩], true) := by
  decide

/-- Claim C4 (amended): for every contentful article the upsert key is chosen
with priority fingerprint (non-empty string) over the url field, the url field
is used whenever the fingerprint is unset or empty — even a null url — and the
document is always written (never rejected); in particular an article with a
sourceURL set but fingerprint unset is persisted keyed by its URL. -/
theorem upsert_key_priority (store : List Doc) (obj : Article) (inputUrl : String)
    (h : contentless obj = false) :
    (upsertArticle store obj inputUrl).snd = true ∧
    (upsertArticle store obj inputUrl).fst = (updateOne store (primaryKey obj) (toDoc obj)).fst ∧
    (∀ hh : String, obj.content_hash = some hh → hh ≠ "" → primaryKey obj = QueryKey.byHash hh) ∧
    (truthy obj.content_hash = false → primaryKey obj = QueryKey.byUrl obj.url) := by
  refine ⟨by simp [upsertArticle, h], by simp [upsertArticle, h], ?_, ?_⟩
  · intro hh hch hne
    simp [primaryKey, hch, hne]
  · intro ht
    cases hch : obj.content_hash with
    | none => simp [primaryKey, hch]
    | some s =>
        rw [hch] at ht
        simp only [truthy] at ht
        simp only [decide_eq_false_iff_not, not_not] at ht
        simp [primaryKey, hch, ht]

/-- Witness for C4 at a concrete article with a URL, content, and no
fingerprint: it is persisted (result True) with the URL-based key. -/
theorem upsert_key_priority_witness :
    contentless ⟨none, some "https://x.test/2", none, none, none, none, some "<p>b</p>", none,
      none⟩ = false ∧
    (upsertArticle [] ⟨none, some "https://x.test/2", none, none, none, none, some "<p>b</p>",
      none, none⟩ "https://x.test/2").snd = true ∧
    primaryKey ⟨none, some "https://x.test/2", none, none, none, none, some "<p>b</p>", none,
      none⟩ = QueryKey.byUrl (some "https://x.test/2") :=
  ⟨by decide,
   (upsert_key_priority [] ⟨none, some "https://x.test/2", none, none, none, none,
      some "<p>b</p>", none, none⟩ "https://x.test/2" (by decide)).1,
   by
    have h := (upsert_key_priority [] ⟨none, some "https://x.test/2", none, none, none, none,
      some "<p>b</p>", none, none⟩ "https://x.test/2" (by decide)).2.2.2 (by decide)
    exact h⟩

/-- Counterexample for C5: when the primary upsert key is the URL (fingerprint
unset) and the backend raises a duplicate-key error, the single retry uses the
URL-based key AGAIN — not the fingerprint, as the claim's "fingerprint if URL
was the primary key" requires. -/
theorem upsert_retry_counterexample :
    upsertAttempts (fun _ => WriteResult.dupKey)
      ⟨none, some "https://e.test/a", none, none, none, none, some "<p>x</p>", none, none⟩ =
      ([QueryKey.byUrl (some "https://e.test/a"), QueryKey.byUrl (some "https://e.test/a")],
       false) := by
  decide

/-- Claim C5 (amended): on a duplicate-key error during the primary upsert the
adapter retries exactly once, always with the URL-based fallback key
{"url": obj.url} (whichever key was primary); if the retry does not succeed the
operation reports failure, and no more than two attempts are ever made.  A
non-duplicate error on the primary attempt fails immediately without retry. -/
theorem upsert_retry_once_url (outcome : QueryKey → WriteResult) (obj : Article)
    (h : contentless obj = false) :
    (upsertAttempts outcome obj).fst.length ≤ 2 ∧
    (outcome (primaryKey obj) = WriteResult.dupKey →
      (upsertAttempts outcome obj).fst = [primaryKey obj, QueryKey.byUrl obj.url] ∧
      ((upsertAttempts outcome obj).snd = true ↔
        outcome (QueryKey.byUrl obj.url) = WriteResult.ok)) ∧
    (outcome (primaryKey obj) = WriteResult.err →
      upsertAttempts outcome obj = ([primaryKey obj], false)) := by
  refine ⟨?_, ?_, ?_⟩
  · unfold upsertAttempts
    simp only [h]
    cases houtcome : outcome (primaryKey obj) <;>
      cases hretry : outcome (QueryKey.byUrl obj.url) <;> simp [houtcome, hretry]
  · intro hdup
    unfold upsertAttempts
    simp only [h]
    cases hretry : outcome (QueryKey.byUrl obj.url) <;> simp [hdup, hretry]
  · intro herr
    unfold upsertAttempts
    simp [h, herr]

/-- Witness for C5 at a concrete article whose fingerprint is set: the primary
key is the fingerprint, the retry after a duplicate-key error is the URL key,
and with a retry that also fails the result is failure after two attempts. -/
theorem upsert_retry_once_url_witness :
    (upsertAttempts (fun _ => WriteResult.dupKey)
      ⟨none, some "https://e.test/b", none, none, none, none, some "c", none, some "f1"⟩).fst =
      [QueryKey.byHash "f1", QueryKey.byUrl (some "https://e.test/b")] ∧
    ((upsertAttempts (fun _ => WriteResult.dupKey)
      ⟨none, some "https://e.test/b", none, none, none, none, some "c", none, some "f1"⟩).snd =
        true ↔ (fun _ => WriteResult.dupKey) (QueryKey.byUrl (some "https://e.test/b")) =
          WriteResult.ok) := by
  have h := (upsert_retry_once_url (fun _ => WriteResult.dupKey)
    ⟨none, some "https://e.test/b", none, none, none, none, some "c", none, some "f1"⟩
    (by decide)).2.1 (by decide)
  exact ⟨by rw [h.1]; decide, h.2⟩

/-- The article of the C3 counterexample: no pre-set fingerprint, no URL,
whitespace-only text, non-empty rawHTML. -/
def artTextShadow : Article := ⟨none, none, none, none, none, none, some "x", some " ", none⟩

/-- Counterexample for C3: this article has no pre-set fingerprint, no URL,
and a trimmed rawHTML of "x" (non-empty), so the claim requires its
fingerprint to be the SHA-256 of that content — in particular, to be set.  The
code computes `(text or html or "").strip()`: the whitespace-only text is
Python-truthy, shadows the html, and strips to empty, so the fingerprint stays
unset. -/
theorem fingerprint_text_shadow_counterexample :
    artTextShadow.content_hash = none ∧ artTextShadow.url = none ∧
    pyStrip (artTextShadow.html.getD "") = "x" ∧
    postInitContentHash artTextShadow = none := by
  decide

/-- Modelled on the amended wording of C3: first match wins — a pre-set
fingerprint is kept; a URL carrying a literal "http://" or "https://" prefix
is hashed; otherwise the candidate content is the text field when it is a
non-empty string, else the rawHTML, and when that candidate trims to something
non-empty the trimmed content is hashed; otherwise the fingerprint stays
unset. -/
def specFingerprintPolicy (a : Article) : Option String :=
  if a.content_hash.isSome then a.content_hash
  else
    let u := a.url.getD ""
    if strStarts u "http://" || strStarts u "https://" then some (sha256_hex u)
    else
      let candidate :=
        match a.text with
        | none => a.html.getD ""
        | some t => if t = "" then a.html.getD "" else t
      if pyStrip candidate = "" then none else some (sha256_hex (pyStrip candidate))

/-- Claim C3 (amended): the fingerprint policy of ObjectModel.__post_init__
coincides, on every article, with the first-match-wins policy spelled out in
specFingerprintPolicy: pre-set fingerprint kept; URL with an http(s) prefix
hashed; else the text-if-non-empty-else-rawHTML candidate, trimmed, hashed if
non-empty; else unset. -/
theorem fingerprint_policy_eq_spec (a : Article) :
    postInitContentHash a = specFingerprintPolicy a := by
  have hbase : ∀ h : Option String, pyOrS h "" = h.getD "" := by
    intro h
    cases h with
    | none => rfl
    | some s => by_cases hs : s = "" <;> simp [pyOrS, hs]
  obtain ⟨i, u, t1, t2, au, c, h, x, ch⟩ := a
  have hcand : pyOrS x (pyOrS h "") =
      (match x with
       | none => h.getD ""
       | some t => if t = "" then h.getD "" else t) := by
    cases x with
    | none => exact hbase h
    | some t =>
        show (if t = "" then pyOrS h "" else t) = _
        rw [hbase h]
  cases ch with
  | some s => simp [postInitContentHash, specFingerprintPolicy]
  | none =>
    cases u with
    | none =>
      have hpre : (strStarts "" "http://" || strStarts "" "https://") = false := by decide
      simp only [postInitContentHash, specFingerprintPolicy, Option.isSome_none,
        Option.getD_none, hpre, Bool.false_eq_true, if_false, fallbackContentHash, dataOf,
        hcand]
    | some us =>
      simp only [postInitContentHash, specFingerprintPolicy, isHttpUrl, Option.isSome_none,
        Option.getD_some, Bool.false_eq_true, if_false]
      by_cases hcond : (strStarts us "http://" || strStarts us "https://") = true
      · simp [hcond]
      · simp only [Bool.not_eq_true] at hcond
        simp only [hcond, Bool.false_eq_true, if_false, fallbackContentHash, dataOf, hcand]

/-- Claim C9: fingerprint determinism — the computed fingerprint is a pure
function of (URL, text, rawHTML) for articles without a pre-set fingerprint,
and an article whose URL is "https://taz.de/a/1" always receives the digest
sha256("https://taz.de/a/1"). -/
theorem fingerprint_deterministic :
    (∀ a b : Article, a.url = b.url → a.text = b.text → a.html = b.html →
      a.content_hash = none → b.content_hash = none →
      postInitContentHash a = postInitContentHash b) ∧
    (∀ a : Article, a.url = some "https://taz.de/a/1" → a.content_hash = none →
      postInitContentHash a = some (sha256_hex "https://taz.de/a/1")) := by
  have hfields : ∀ a : Article, postInitContentHash a =
      postInitContentHash ⟨none, a.url, none, none, none, none, a.html, a.text,
        a.content_hash⟩ := by
    intro a
    obtain ⟨i, u, t1, t2, au, c, h, x, ch⟩ := a
    rfl
  constructor
  · intro a b hu ht hh hca hcb
    rw [hfields a, hfields b, hu, ht, hh, hca, hcb]
  · intro a hu hc
    rw [hfields a, hu, hc]
    have hhttp : isHttpUrl "https://taz.de/a/1" = true := by decide
    simp [postInitContentHash, hhttp]

/-- Witness for C9: two concrete articles agreeing on (URL, text, rawHTML)
receive the same fingerprint, and the taz URL receives its URL digest. -/
theorem fingerprint_deterministic_witness :
    postInitContentHash ⟨none, some "https://taz.de/a/1", some "T", none, none, none,
        some "<p>a</p>", some "b", none⟩ =
      postInitContentHash ⟨some 7, some "https://taz.de/a/1", none, some "S", none, none,
        some "<p>a</p>", some "b", none⟩ ∧
    postInitContentHash ⟨none, some "https://taz.de/a/1", some "T", none, none, none,
        some "<p>a</p>", some "b", none⟩ = some (sha256_hex "https://taz.de/a/1") :=
  ⟨fingerprint_deterministic.1 _ _ rfl rfl rfl rfl rfl,
   fingerprint_deterministic.2 _ rfl rfl⟩

/-- Claim C7: a URL whose fetch fails is not aborted — the pipeline proceeds
to the parse stage with an empty body, and (with the repository's own
coercion, i.e. no domain parse callback or a parse callback that raises) the
article produced for that URL is the minimal one: its URL, an empty rawHTML
and an empty text. -/
theorem fetch_failure_minimal_article (fetch : String → Option String)
    (parseFn : Option (String → String → Option Article)) (u : String)
    (hf : fetch u = none) (hp : parseResult parseFn u "" = none) :
    (builtObj fetch parseFn u).url = some u ∧
    (builtObj fetch parseFn u).html = some "" ∧
    (builtObj fetch parseFn u).text = some "" := by
  unfold builtObj
  rw [hf]
  simp only [Option.getD]
  rw [hp]
  simp [coerceToObjectModel, stripTags, subTagsAux]

/-- Witness for C7: a concrete always-failing fetch with no parse callback
produces the minimal empty-text article for its URL. -/
theorem fetch_failure_minimal_article_witness :
    (builtObj (fun _ => none) none "https://x.test/t").url = some "https://x.test/t" ∧
    (builtObj (fun _ => none) none "https://x.test/t").html = some "" ∧
    (builtObj (fun _ => none) none "https://x.test/t").text = some "" :=
  fetch_failure_minimal_article (fun _ => none) none "https://x.test/t" rfl rfl

/-! Lemmas about the id generator. -/

theorem ensure_le (m : Int) (g : IdGen) : g.next ≤ (ensureNextInternalIdAtLeast m g).next := by
  unfold ensureNextInternalIdAtLeast
  split
  · dsimp only
    omega
  · omega

theorem ensure_gt (m : Int) (g : IdGen) : m < (ensureNextInternalIdAtLeast m g).next := by
  unfold ensureNextInternalIdAtLeast
  split
  · dsimp only
    omega
  · omega

theorem applyMaxSeen_le (i n : Option Int) (g : IdGen) :
    g.next ≤ (applyMaxSeen i n g).next := by
  unfold applyMaxSeen
  cases maxSeen i n with
  | none => exact le_refl _
  | some m => exact ensure_le m g

theorem assignInternalId_le (p : Option Int) (g : IdGen) :
    g.next ≤ (assignInternalId p g).snd.next := by
  cases p with
  | none => dsimp [assignInternalId, getNextInternalId]; omega
  | some j => exact ensure_le j g

theorem stepEvent_next_le (g : IdGen) (e : IdEvent) : g.next ≤ (stepEvent g e).snd.next := by
  cases e with
  | fresh => dsimp [stepEvent, getNextInternalId]; omega
  | deser i n =>
      dsimp only [stepEvent]
      exact le_trans (applyMaxSeen_le i n g) (assignInternalId_le i _)

theorem runEvents_next_le (evs : List IdEvent) : ∀ g : IdGen,
    g.next ≤ (runEvents g evs).next := by
  induction evs with
  | nil => intro g; exact le_refl _
  | cons e es ih =>
      intro g
      calc g.next ≤ (stepEvent g e).snd.next := stepEvent_next_le g e
        _ ≤ (runEvents (stepEvent g e).snd es).next := ih _

theorem freshIds_lb (evs : List IdEvent) : ∀ g : IdGen, ∀ v ∈ freshIds g evs, g.next ≤ v := by
  induction evs with
  | nil => intro g v hv; simp [freshIds] at hv
  | cons e es ih =>
      intro g v hv
      cases e with
      | fresh =>
          simp only [freshIds, List.mem_cons] at hv
          rcases hv with hv | hv
          · simp [stepEvent, getNextInternalId] at hv; omega
          · have := ih _ v hv
            have hle := stepEvent_next_le g IdEvent.fresh
            omega
      | deser i n =>
          simp only [freshIds] at hv
          have := ih _ v hv
          have hle := stepEvent_next_le g (IdEvent.deser i n)
          omega

theorem runEvents_append (l1 l2 : List IdEvent) : ∀ g : IdGen,
    runEvents g (l1 ++ l2) = runEvents (runEvents g l1) l2 := by
  induction l1 with
  | nil => intro g; rfl
  | cons e es ih => intro g; simp only [List.cons_append, runEvents]; exact ih _

/-- The fresh ids of a run split across any prefix: the ids assigned after a
prefix of events are the freshIds of the generator state the prefix left. -/
theorem freshIds_append (l1 l2 : List IdEvent) : ∀ g : IdGen,
    freshIds g (l1 ++ l2) = freshIds g l1 ++ freshIds (runEvents g l1) l2 := by
  induction l1 with
  | nil => intro g; rfl
  | cons e es ih =>
      intro g
      cases e with
      | fresh =>
          simp only [List.cons_append, freshIds, runEvents, List.append_eq]
          rw [ih]
      | deser i n =>
          simp only [List.cons_append, freshIds, runEvents, List.append_eq]
          rw [ih]

theorem deser_advances (g : IdGen) (i n : Option Int) (m : Int) (hm : maxSeen i n = some m) :
    m < (stepEvent g (IdEvent.deser i n)).snd.next := by
  dsimp only [stepEvent]
  have h1 : m < (applyMaxSeen i n g).next := by
    unfold applyMaxSeen
    rw [hm]
    exact ensure_gt m g
  exact lt_of_lt_of_le h1 (assignInternalId_le i _)

/-- Claim C8: auto-assigned internal ids are strictly increasing (hence never
reused) across any in-process sequence of Article constructions and
deserializations, and after a deserialization that observed a maximal numeric
id m, every id assigned later is strictly greater than m. -/
theorem internal_ids_monotone (g : IdGen) (evs : List IdEvent) :
    (freshIds g evs).Pairwise (· < ·) ∧
    (∀ l1 i n l2, evs = l1 ++ IdEvent.deser i n :: l2 →
      ∀ m : Int, maxSeen i n = some m →
        ∀ v ∈ freshIds (runEvents g (l1 ++ [IdEvent.deser i n])) l2, m < v) := by
  constructor
  · induction evs generalizing g with
    | nil => simp [freshIds]
    | cons e es ih =>
        cases e with
        | fresh =>
            simp only [freshIds]
            refine List.Pairwise.cons ?_ (ih _)
            intro v hv
            have := freshIds_lb es (stepEvent g IdEvent.fresh).snd v hv
            simp [stepEvent, getNextInternalId] at this ⊢
            omega
        | deser i n => simp only [freshIds]; exact ih _
  · intro l1 i n l2 hsplit m hm v hv
    have hstep : runEvents g (l1 ++ [IdEvent.deser i n]) =
        (stepEvent (runEvents g l1) (IdEvent.deser i n)).snd := by
      rw [runEvents_append]; rfl
    have hadv := deser_advances (runEvents g l1) i n m hm
    have hlb := freshIds_lb l2 (runEvents g (l1 ++ [IdEvent.deser i n])) v hv
    rw [hstep] at hlb
    omega

/-! Lemmas about the pipeline. -/

theorem contains_iff_mem (l : List String) (a : String) : l.contains a = true ↔ a ∈ l := by
  constructor
  · intro h
    exact List.mem_of_elem_eq_true h
  · intro h
    exact List.elem_eq_true_of_mem h

theorem fillHash_url (a : Article) : (fillHash a).url = a.url := by
  unfold fillHash
  split <;> rfl

theorem preTagObj_url (fetch : String → Option String)
    (parseFn : Option (String → String → Option Article)) (u : String)
    (hp : parseFn = none) : (preTagObj fetch parseFn u).url = some u := by
  subst hp
  unfold preTagObj builtObj coerceToObjectModel parseResult
  rw [fillHash_url]

/-- Counterexample for C1: a URL whose fetch fails yields a contentless
article whose fingerprint is its URL hash; upsert_article refuses to write it
(result False, store untouched), yet the pipeline still registers the
fingerprint in the known set — the Known-Set changes although the upsert
reported failure, which the claim forbids. -/
theorem known_registered_without_store_counterexample :
    upsertArticle [] (preTagObj (fun _ => none) none "https://x.test/1") "https://x.test/1" =
      ([], false) ∧
    processUrl (fun _ => none) none (fun a => a) upsertArticle (PipeState.mk [] [])
        "https://x.test/1" =
      (PipeState.mk [] [sha256_hex "https://x.test/1"], ["https://x.test/1"]) := by
  constructor
  · decide
  · decide

/-- Claim C1 (amended): the fingerprint is registered into the Known-Set only
after the upsert attempt — the two dedup-skip paths never mutate any state —
but it is registered regardless of the upsert's outcome: the characterisation
below holds for every upsert callback, including one that reports failure or
writes nothing, because process_domain_generic ignores the upsert's result. -/
theorem known_registration_after_upsert (fetch : String → Option String)
    (parseFn : Option (String → String → Option Article)) (posTag : Article → Article)
    (upsert : List Doc → Article → String → List Doc × Bool) (st : PipeState) (u : String) :
    (skipsPreTag st.known (preTagObj fetch parseFn u) = true →
      processUrl fetch parseFn posTag upsert st u = (st, [u])) ∧
    (skipsPreTag st.known (preTagObj fetch parseFn u) = false →
      tagSkip st.known (posTag (preTagObj fetch parseFn u)) = true →
      processUrl fetch parseFn posTag upsert st u = (st, [u])) ∧
    (skipsPreTag st.known (preTagObj fetch parseFn u) = false →
      tagSkip st.known (posTag (preTagObj fetch parseFn u)) = false →
      processUrl fetch parseFn posTag upsert st u =
        (PipeState.mk (upsert st.store (posTag (preTagObj fetch parseFn u)) u).fst
          (if truthy (posTag (preTagObj fetch parseFn u)).content_hash then
            addKnown ((posTag (preTagObj fetch parseFn u)).content_hash.getD "") st.known
          else st.known), [u])) := by
  refine ⟨?_, ?_, ?_⟩
  · intro h1
    simp [processUrl, h1]
  · intro h1 h2
    simp [processUrl, h1, h2]
  · intro h1 h2
    simp [processUrl, h1, h2]

/-- Witness for C1: with a fetch that fails and an upsert callback that always
reports failure and writes nothing, the pipeline still registers the URL
fingerprint of https://w.test/1 in the Known-Set. -/
theorem known_registration_after_upsert_witness :
    processUrl (fun _ => none) none (fun a => a) (fun s _ _ => (s, false))
        (PipeState.mk [] []) "https://w.test/1" =
      (PipeState.mk [] [sha256_hex "https://w.test/1"], ["https://w.test/1"]) := by
  have h := (known_registration_after_upsert (fun _ => none) none (fun a => a)
    (fun s _ _ => (s, false)) (PipeState.mk [] []) "https://w.test/1").2.2
    (by decide) (by decide)
  rw [h]
  decide

/-- Counterexample for C2: a candidate URL whose URL fingerprint is already in
the Known-Set is still fetched — the returned fetch trace is ["https://x.test/1"],
not [] — although its processing then ends in the skipped-known state.  The
claim asserts no network fetch is performed for such a URL. -/
theorem fetch_before_dedup_counterexample :
    processUrl (fun _ => some "<p>hi</p>") none (fun a => a) upsertArticle
        (PipeState.mk [] [sha256_hex "https://x.test/1"]) "https://x.test/1" =
      (PipeState.mk [] [sha256_hex "https://x.test/1"], ["https://x.test/1"]) := by
  decide

/-- Claim C2 (amended): a candidate http(s) URL whose URL-derived SHA-256
fingerprint is already in the Known-Set is fetched (the loop fetches first,
unconditionally), and its processing then terminates in the skipped-known
state: no tagging, no upsert, and no change to the store or the Known-Set.
Stated for the repository's own coercion path (no domain parse callback). -/
theorem known_url_skipped_after_fetch (fetch : String → Option String)
    (posTag : Article → Article) (upsert : List Doc → Article → String → List Doc × Bool)
    (st : PipeState) (u : String) (h1 : isHttpUrl u = true) (h2 : sha256_hex u ∈ st.known) :
    processUrl fetch none posTag upsert st u = (st, [u]) := by
  have hurl : urlHashOf (preTagObj fetch none u) = some (sha256_hex u) := by
    unfold urlHashOf
    rw [preTagObj_url fetch none u rfl]
    simp [h1]
  have hskip : skipsPreTag st.known (preTagObj fetch none u) = true := by
    unfold skipsPreTag
    rw [hurl]
    have hc := (contains_iff_mem st.known (sha256_hex u)).mpr h2
    simp [hc, h2]
  simp [processUrl, hskip]

/-- Witness for C2: a concrete known URL is fetched and then skipped with the
state unchanged. -/
theorem known_url_skipped_after_fetch_witness :
    processUrl (fun _ => some "body") none (fun a => a) upsertArticle
        (PipeState.mk [] [sha256_hex "https://w.test/2"]) "https://w.test/2" =
      (PipeState.mk [] [sha256_hex "https://w.test/2"], ["https://w.test/2"]) :=
  known_url_skipped_after_fetch (fun _ => some "body") (fun a => a) upsertArticle
    (PipeState.mk [] [sha256_hex "https://w.test/2"]) "https://w.test/2" (by decide)
    (List.mem_singleton.mpr rfl)

/-! Lemmas for the second-run theorem (C6).  The central invariant: once a
URL-keyed upsert has run, the store always holds a document with that url
field and a non-truthy content_hash — such a document is never matched by a
hash-keyed query, and every URL-keyed query that touches it re-establishes the
shape, so a later URL-keyed upsert for the same url field finds a match and
never inserts. -/

def hasUrlWitness (v : Option String) (store : List Doc) : Prop :=
  ∃ d ∈ store, d.url = v ∧ truthy d.content_hash = false

theorem mem_updateOne_self (store : List Doc) (q : QueryKey) (d : Doc) :
    d ∈ (updateOne store q d).fst := by
  induction store with
  | nil => simp [updateOne]
  | cons x xs ih =>
      simp only [updateOne]
      split
      · exact List.mem_cons_self _ _
      · exact List.mem_cons_of_mem _ ih

theorem updateOne_length_of_match (store : List Doc) (q : QueryKey) (d : Doc)
    (h : ∃ x ∈ store, matchesQ q x = true) :
    (updateOne store q d).fst.length = store.length := by
  induction store with
  | nil => simp at h
  | cons x xs ih =>
      simp only [updateOne]
      by_cases hx : matchesQ q x = true
      · simp [hx]
      · rcases h with ⟨y, hy, hmy⟩
        rcases List.mem_cons.mp hy with rfl | hy'
        · exact absurd hmy hx
        · simp only [hx, Bool.false_eq_true, if_false, List.length_cons]
          rw [ih ⟨y, hy', hmy⟩]

theorem hasUrlWitness_updateOne (v : Option String) (store : List Doc) (q : QueryKey)
    (d : Doc)
    (hq : (∃ h, q = QueryKey.byHash h ∧ h ≠ "") ∨
          (∃ w, q = QueryKey.byUrl w ∧ d.url = w ∧ truthy d.content_hash = false))
    (hw : hasUrlWitness v store) :
    hasUrlWitness v (updateOne store q d).fst := by
  induction store with
  | nil =>
      rcases hw with ⟨y, hy, _⟩
      simp at hy
  | cons x xs ih =>
      simp only [updateOne]
      rcases hw with ⟨y, hy, hyu, hyt⟩
      by_cases hx : matchesQ q x = true
      · simp only [hx, if_true]
        rcases List.mem_cons.mp hy with rfl | hy'
        · rcases hq with ⟨h, rfl, hne⟩ | ⟨w, rfl, hdu, hdt⟩
          · exfalso
            have hx' : y.content_hash = some h := of_decide_eq_true hx
            rw [hx'] at hyt
            simp only [truthy, decide_eq_false_iff_not, not_not] at hyt
            exact hne hyt
          · have hx' : y.url = w := of_decide_eq_true hx
            exact ⟨d, List.mem_cons_self _ _, by rw [hdu, ← hx', hyu], hdt⟩
        · exact ⟨y, List.mem_cons_of_mem _ hy', hyu, hyt⟩
      · simp only [hx, Bool.false_eq_true, if_false]
        rcases List.mem_cons.mp hy with rfl | hy'
        · exact ⟨y, List.mem_cons_self _ _, hyu, hyt⟩
        · rcases ih ⟨y, hy', hyu, hyt⟩ with ⟨z, hz, hzu, hzt⟩
          exact ⟨z, List.mem_cons_of_mem _ hz, hzu, hzt⟩

theorem hasUrlWitness_upsert (v : Option String) (store : List Doc) (t : Article)
    (iu : String) (hw : hasUrlWitness v store) :
    hasUrlWitness v (upsertArticle store t iu).fst := by
  unfold upsertArticle
  by_cases hc : contentless t = true
  · simpa [hc] using hw
  · simp only [hc, Bool.false_eq_true, if_false]
    apply hasUrlWitness_updateOne v store (primaryKey t) (toDoc t) ?_ hw
    unfold primaryKey
    cases hch : t.content_hash with
    | none =>
        right
        exact ⟨t.url, rfl, rfl, by simp [toDoc, truthy, hch]⟩
    | some h =>
        by_cases hh : h = ""
        · right
          subst hh
          exact ⟨t.url, by simp, rfl, by simp [toDoc, truthy, hch]⟩
        · left
          exact ⟨h, by simp [hh], hh⟩

theorem mem_addKnown (x h : String) (k : List String) (hx : x ∈ k) : x ∈ addKnown h k := by
  unfold addKnown
  split
  · exact hx
  · exact List.mem_cons_of_mem _ hx

theorem mem_addKnown_self (h : String) (k : List String) : h ∈ addKnown h k := by
  unfold addKnown
  split
  · assumption
  · exact List.mem_cons_self _ _

/-! Branch lemmas for processUrl. -/

theorem processUrl_skip1 (fetch : String → Option String)
    (parseFn : Option (String → String → Option Article)) (posTag : Article → Article)
    (upsert : List Doc → Article → String → List Doc × Bool) (st : PipeState) (u : String)
    (h : skipsPreTag st.known (preTagObj fetch parseFn u) = true) :
    processUrl fetch parseFn posTag upsert st u = (st, [u]) := by
  simp [processUrl, h]

theorem processUrl_skip2 (fetch : String → Option String)
    (parseFn : Option (String → String → Option Article)) (posTag : Article → Article)
    (upsert : List Doc → Article → String → List Doc × Bool) (st : PipeState) (u : String)
    (h1 : skipsPreTag st.known (preTagObj fetch parseFn u) = false)
    (h2 : tagSkip st.known (posTag (preTagObj fetch parseFn u)) = true) :
    processUrl fetch parseFn posTag upsert st u = (st, [u]) := by
  simp [processUrl, h1, h2]

theorem processUrl_go (fetch : String → Option String)
    (parseFn : Option (String → String → Option Article)) (posTag : Article → Article)
    (upsert : List Doc → Article → String → List Doc × Bool) (st : PipeState) (u : String)
    (h1 : skipsPreTag st.known (preTagObj fetch parseFn u) = false)
    (h2 : tagSkip st.known (posTag (preTagObj fetch parseFn u)) = false) :
    processUrl fetch parseFn posTag upsert st u =
      (PipeState.mk (upsert st.store (posTag (preTagObj fetch parseFn u)) u).fst
        (if truthy (posTag (preTagObj fetch parseFn u)).content_hash then
          addKnown ((posTag (preTagObj fetch parseFn u)).content_hash.getD "") st.known
        else st.known), [u]) := by
  simp [processUrl, h1, h2]

theorem stepUrl_known_sub (fetch : String → Option String)
    (parseFn : Option (String → String → Option Article)) (posTag : Article → Article)
    (upsert : List Doc → Article → String → List Doc × Bool) (st : PipeState) (u : String) :
    ∀ x ∈ st.known, x ∈ (stepUrl fetch parseFn posTag upsert st u).known := by
  intro x hx
  unfold stepUrl
  by_cases h1 : skipsPreTag st.known (preTagObj fetch parseFn u) = true
  · rw [processUrl_skip1 fetch parseFn posTag upsert st u h1]
    exact hx
  · rw [Bool.not_eq_true] at h1
    by_cases h2 : tagSkip st.known (posTag (preTagObj fetch parseFn u)) = true
    · rw [processUrl_skip2 fetch parseFn posTag upsert st u h1 h2]
      exact hx
    · rw [Bool.not_eq_true] at h2
      rw [processUrl_go fetch parseFn posTag upsert st u h1 h2]
      split
      · exact mem_addKnown _ _ _ hx
      · exact hx

theorem stepUrl_witness (fetch : String → Option String)
    (parseFn : Option (String → String → Option Article)) (posTag : Article → Article)
    (st : PipeState) (u : String) (v : Option String) (hw : hasUrlWitness v st.store) :
    hasUrlWitness v (stepUrl fetch parseFn posTag upsertArticle st u).store := by
  unfold stepUrl
  by_cases h1 : skipsPreTag st.known (preTagObj fetch parseFn u) = true
  · rw [processUrl_skip1 fetch parseFn posTag upsertArticle st u h1]
    exact hw
  · rw [Bool.not_eq_true] at h1
    by_cases h2 : tagSkip st.known (posTag (preTagObj fetch parseFn u)) = true
    · rw [processUrl_skip2 fetch parseFn posTag upsertArticle st u h1 h2]
      exact hw
    · rw [Bool.not_eq_true] at h2
      rw [processUrl_go fetch parseFn posTag upsertArticle st u h1 h2]
      exact hasUrlWitness_upsert v st.store _ u hw

/-- Both dedup checks of one URL, as one predicate over the known set. -/
def skipsAt (fetch : String → Option String)
    (parseFn : Option (String → String → Option Article)) (posTag : Article → Article)
    (known : List String) (u : String) : Bool :=
  skipsPreTag known (preTagObj fetch parseFn u)
    || tagSkip known (posTag (preTagObj fetch parseFn u))

theorem contains_mono (k k' : List String) (hsub : ∀ x ∈ k, x ∈ k') (a : String)
    (ha : k.contains a = true) : k'.contains a = true :=
  (contains_iff_mem k' a).mpr (hsub a ((contains_iff_mem k a).mp ha))

theorem skipsPreTag_mono (k k' : List String) (hsub : ∀ x ∈ k, x ∈ k') (a : Article)
    (h : skipsPreTag k a = true) : skipsPreTag k' a = true := by
  unfold skipsPreTag at h ⊢
  simp only [Bool.or_eq_true, Bool.and_eq_true] at h ⊢
  rcases h with (⟨ht, hc⟩ | h) | h
  · exact Or.inl (Or.inl ⟨ht, contains_mono k k' hsub _ hc⟩)
  · left
    right
    cases hu : urlHashOf a with
    | none =>
        simp only [hu] at h
        exact Bool.noConfusion h
    | some hh =>
        simp only [hu] at h ⊢
        exact contains_mono k k' hsub _ h
  · right
    cases hcc : contentHashCalcOf a with
    | none =>
        simp only [hcc] at h
        exact Bool.noConfusion h
    | some hh =>
        simp only [hcc] at h ⊢
        exact contains_mono k k' hsub _ h

theorem tagSkip_mono (k k' : List String) (hsub : ∀ x ∈ k, x ∈ k') (t : Article)
    (h : tagSkip k t = true) : tagSkip k' t = true := by
  unfold tagSkip at h ⊢
  simp only [Bool.and_eq_true] at h ⊢
  exact ⟨h.1, contains_mono k k' hsub _ h.2⟩

theorem skipsAt_mono (fetch : String → Option String)
    (parseFn : Option (String → String → Option Article)) (posTag : Article → Article)
    (k k' : List String) (hsub : ∀ x ∈ k, x ∈ k') (u : String)
    (h : skipsAt fetch parseFn posTag k u = true) :
    skipsAt fetch parseFn posTag k' u = true := by
  unfold skipsAt at h ⊢
  simp only [Bool.or_eq_true] at h ⊢
  rcases h with h | h
  · exact Or.inl (skipsPreTag_mono k k' hsub _ h)
  · exact Or.inr (tagSkip_mono k k' hsub _ h)

/-- The run-2 invariant for one URL: its dedup checks already fire, or its
tagged article has a non-truthy fingerprint and is either contentless or
covered by a URL witness in the store. -/
def GoodUrl (fetch : String → Option String)
    (parseFn : Option (String → String → Option Article)) (posTag : Article → Article)
    (u : String) (st : PipeState) : Prop :=
  skipsAt fetch parseFn posTag st.known u = true ∨
  (truthy (posTag (preTagObj fetch parseFn u)).content_hash = false ∧
    (contentless (posTag (preTagObj fetch parseFn u)) = true ∨
     hasUrlWitness (posTag (preTagObj fetch parseFn u)).url st.store))

theorem stepUrl_good_self (fetch : String → Option String)
    (parseFn : Option (String → String → Option Article)) (posTag : Article → Article)
    (st : PipeState) (u : String) :
    GoodUrl fetch parseFn posTag u (stepUrl fetch parseFn posTag upsertArticle st u) := by
  by_cases h1 : skipsPreTag st.known (preTagObj fetch parseFn u) = true
  · left
    unfold stepUrl
    rw [processUrl_skip1 fetch parseFn posTag upsertArticle st u h1]
    unfold skipsAt
    simp [h1]
  · rw [Bool.not_eq_true] at h1
    by_cases h2 : tagSkip st.known (posTag (preTagObj fetch parseFn u)) = true
    · left
      unfold stepUrl
      rw [processUrl_skip2 fetch parseFn posTag upsertArticle st u h1 h2]
      unfold skipsAt
      simp [h2]
    · rw [Bool.not_eq_true] at h2
      unfold stepUrl
      rw [processUrl_go fetch parseFn posTag upsertArticle st u h1 h2]
      by_cases ht : truthy (posTag (preTagObj fetch parseFn u)).content_hash = true
      · left
        unfold skipsAt
        simp only [ht, if_true, Bool.or_eq_true]
        right
        unfold tagSkip
        simp only [ht, Bool.true_and]
        exact (contains_iff_mem _ _).mpr (mem_addKnown_self _ _)
      · rw [Bool.not_eq_true] at ht
        right
        refine ⟨ht, ?_⟩
        by_cases hc : contentless (posTag (preTagObj fetch parseFn u)) = true
        · exact Or.inl hc
        · right
          simp only [ht, Bool.false_eq_true, if_false]
          unfold upsertArticle
          simp only [hc, Bool.false_eq_true, if_false]
          have hkey : primaryKey (posTag (preTagObj fetch parseFn u)) =
              QueryKey.byUrl (posTag (preTagObj fetch parseFn u)).url := by
            unfold primaryKey
            cases hch : (posTag (preTagObj fetch parseFn u)).content_hash with
            | none => rfl
            | some h =>
                rw [hch] at ht
                simp only [truthy, decide_eq_false_iff_not, not_not] at ht
                simp [ht]
          rw [hkey]
          exact ⟨toDoc _, mem_updateOne_self _ _ _, rfl, by
            show truthy (posTag (preTagObj fetch parseFn u)).content_hash = false
            exact ht⟩

theorem stepUrl_good_mono (fetch : String → Option String)
    (parseFn : Option (String → String → Option Article)) (posTag : Article → Article)
    (u u' : String) (st : PipeState) (hg : GoodUrl fetch parseFn posTag u st) :
    GoodUrl fetch parseFn posTag u (stepUrl fetch parseFn posTag upsertArticle st u') := by
  rcases hg with h | ⟨ht, hcw⟩
  · left
    exact skipsAt_mono fetch parseFn posTag st.known _
      (stepUrl_known_sub fetch parseFn posTag upsertArticle st u') u h
  · right
    refine ⟨ht, ?_⟩
    rcases hcw with hc | hw
    · exact Or.inl hc
    · exact Or.inr (stepUrl_witness fetch parseFn posTag st u' _ hw)

theorem runUrls_good_mono (fetch : String → Option String)
    (parseFn : Option (String → String → Option Article)) (posTag : Article → Article)
    (u : String) (L : List String) : ∀ st : PipeState,
    GoodUrl fetch parseFn posTag u st →
    GoodUrl fetch parseFn posTag u (runUrls fetch parseFn posTag upsertArticle st L) := by
  induction L with
  | nil => intro st hg; exact hg
  | cons v rest ih =>
      intro st hg
      exact ih _ (stepUrl_good_mono fetch parseFn posTag u v st hg)

theorem good_after_run (fetch : String → Option String)
    (parseFn : Option (String → String → Option Article)) (posTag : Article → Article)
    (urls : List String) : ∀ st : PipeState, ∀ u ∈ urls,
    GoodUrl fetch parseFn posTag u (runUrls fetch parseFn posTag upsertArticle st urls) := by
  induction urls with
  | nil => intro st u hu; simp at hu
  | cons v rest ih =>
      intro st u hu
      rcases List.mem_cons.mp hu with rfl | hu'
      · exact runUrls_good_mono fetch parseFn posTag u rest _
          (stepUrl_good_self fetch parseFn posTag st u)
      · exact ih _ u hu'

theorem step_noop_of_good (fetch : String → Option String)
    (parseFn : Option (String → String → Option Article)) (posTag : Article → Article)
    (u : String) (st : PipeState) (hg : GoodUrl fetch parseFn posTag u st) :
    (stepUrl fetch parseFn posTag upsertArticle st u).store.length = st.store.length ∧
    (stepUrl fetch parseFn posTag upsertArticle st u).known = st.known := by
  by_cases h1 : skipsPreTag st.known (preTagObj fetch parseFn u) = true
  · unfold stepUrl
    rw [processUrl_skip1 fetch parseFn posTag upsertArticle st u h1]
    exact ⟨rfl, rfl⟩
  · rw [Bool.not_eq_true] at h1
    by_cases h2 : tagSkip st.known (posTag (preTagObj fetch parseFn u)) = true
    · unfold stepUrl
      rw [processUrl_skip2 fetch parseFn posTag upsertArticle st u h1 h2]
      exact ⟨rfl, rfl⟩
    · rw [Bool.not_eq_true] at h2
      rcases hg with hsk | ⟨ht, hcw⟩
      · exfalso
        unfold skipsAt at hsk
        simp only [Bool.or_eq_true, h1, h2, Bool.false_eq_true, or_self] at hsk
      · unfold stepUrl
        rw [processUrl_go fetch parseFn posTag upsertArticle st u h1 h2]
        simp only [ht, Bool.false_eq_true, if_false]
        refine ⟨?_, by trivial⟩
        rcases hcw with hc | hw
        · unfold upsertArticle
          simp [hc]
        · unfold upsertArticle
          by_cases hcc : contentless (posTag (preTagObj fetch parseFn u)) = true
          · simp [hcc]
          · simp only [hcc, Bool.false_eq_true, if_false]
            have hkey : primaryKey (posTag (preTagObj fetch parseFn u)) =
                QueryKey.byUrl (posTag (preTagObj fetch parseFn u)).url := by
              unfold primaryKey
              cases hch : (posTag (preTagObj fetch parseFn u)).content_hash with
              | none => rfl
              | some h =>
                  rw [hch] at ht
                  simp only [truthy, decide_eq_false_iff_not, not_not] at ht
                  simp [ht]
            rw [hkey]
            rcases hw with ⟨d, hd, hdu, _⟩
            exact updateOne_length_of_match st.store _ _
              ⟨d, hd, by simp [matchesQ, hdu]⟩

theorem second_run_noop (fetch : String → Option String)
    (parseFn : Option (String → String → Option Article)) (posTag : Article → Article)
    (urls : List String) : ∀ st : PipeState,
    (∀ u ∈ urls, GoodUrl fetch parseFn posTag u st) →
    (runUrls fetch parseFn posTag upsertArticle st urls).store.length = st.store.length ∧
    (runUrls fetch parseFn posTag upsertArticle st urls).known = st.known := by
  induction urls with
  | nil => intro st _; exact ⟨rfl, rfl⟩
  | cons v rest ih =>
      intro st hall
      have hv := hall v (List.mem_cons_self _ _)
      have hnoop := step_noop_of_good fetch parseFn posTag v st hv
      have hrest : ∀ u ∈ rest, GoodUrl fetch parseFn posTag u
          (stepUrl fetch parseFn posTag upsertArticle st v) := by
        intro u hu
        exact stepUrl_good_mono fetch parseFn posTag u v st
          (hall u (List.mem_cons_of_mem _ hu))
      have hrec := ih _ hrest
      constructor
      · show (runUrls fetch parseFn posTag upsertArticle
            (stepUrl fetch parseFn posTag upsertArticle st v) rest).store.length = _
        rw [hrec.1, hnoop.1]
      · show (runUrls fetch parseFn posTag upsertArticle
            (stepUrl fetch parseFn posTag upsertArticle st v) rest).known = _
        rw [hrec.2, hnoop.2]

/-- Counterexample for C6: over the URL set ["x"] with a failing fetch, the
first run stores nothing and registers nothing, so the carried-over Known-Set
satisfies the claim's warm premise — yet on the second run the URL "x" is NOT
skipped at any dedup check (it reaches the upsert, which rejects it as
contentless).  The claim's "every URL is skipped at a dedup check" fails,
although no additional document is stored. -/
theorem second_run_not_all_skipped_counterexample :
    runUrls (fun _ => none) none (fun a => a) upsertArticle (PipeState.mk [] []) ["x"] =
      PipeState.mk [] [] ∧
    skipsAt (fun _ => none) none (fun a => a) [] "x" = false := by
  constructor
  · decide
  · decide

/-- Claim C6 (amended): a second pipeline run over the same URL set, with the
state (store and Known-Set) carried over from the first run, stores no
additional documents and leaves the Known-Set unchanged: every URL is either
skipped at a dedup check or reaches an upsert that does not insert a new
document.  Holds for every fetch, parse and tagging behaviour (as pure
functions), with the Store adapter's upsert_article as the persistence
callback. -/
theorem pipeline_second_run_stores_nothing (fetch : String → Option String)
    (parseFn : Option (String → String → Option Article)) (posTag : Article → Article)
    (s0 : PipeState) (urls : List String) :
    (runUrls fetch parseFn posTag upsertArticle
        (runUrls fetch parseFn posTag upsertArticle s0 urls) urls).store.length =
      (runUrls fetch parseFn posTag upsertArticle s0 urls).store.length ∧
    (runUrls fetch parseFn posTag upsertArticle
        (runUrls fetch parseFn posTag upsertArticle s0 urls) urls).known =
      (runUrls fetch parseFn posTag upsertArticle s0 urls).known :=
  second_run_noop fetch parseFn posTag urls _
    (good_after_run fetch parseFn posTag urls s0)

/-- Witness for C8: from a fresh generator, the run
[construct, deserialize a document with _id 5 and legacy id 7, construct]
assigns strictly increasing fresh ids, and the id assigned after the
deserialization exceeds the maximal observed id 7. -/
theorem internal_ids_monotone_witness :
    List.Pairwise (fun a b => a < b)
      (freshIds ⟨0⟩ [IdEvent.fresh, IdEvent.deser (some 5) (some 7), IdEvent.fresh]) ∧
    (7 : Int) < 8 :=
  ⟨(internal_ids_monotone ⟨0⟩
      [IdEvent.fresh, IdEvent.deser (some 5) (some 7), IdEvent.fresh]).1,
   (internal_ids_monotone ⟨0⟩
      [IdEvent.fresh, IdEvent.deser (some 5) (some 7), IdEvent.fresh]).2
      [IdEvent.fresh] (some 5) (some 7) [IdEvent.fresh] rfl 7 (by decide) 8 (by decide)⟩

end GNC
